import Mathlib

/-!
Verification development for the vemetric/favicon-api service.

The TypeScript sources are shallowly embedded: byte buffers become lists of
naturals, JavaScript strings become Lean strings, and every effectful
platform call (fetch, sharp, data-URL decoding) becomes an explicit oracle
argument, so that each embedded function is a total, executable Lean
definition mirroring the control flow of the corresponding source function.
-/

namespace FaviconApi

/-- A Node `Buffer`: a list of byte values. -/
abbrev Bytes := List Nat

/-- `buffer[i]` in JavaScript: out-of-range access yields `undefined`, which
compares unequal to every byte constant; we model `undefined` as 256, a value
outside the byte range. -/
def byteAt (b : Bytes) (i : Nat) : Nat := b.getD i 256

/-- Does the pattern occur as the leading run of the character list?
Models the leading-match step of JavaScript string scanning. -/
def charsLead : List Char → List Char → Bool
  | [], _ => true
  | _ :: _, [] => false
  | a :: as, b :: bs => a == b && charsLead as bs

/-- Does the pattern occur anywhere in the character list?  Models
JavaScript `String.prototype.includes`. -/
def charsHave (pat : List Char) : List Char → Bool
  | [] => charsLead pat []
  | c :: rest => charsLead pat (c :: rest) || charsHave pat rest

/-- JavaScript `s.startsWith(p)`. -/
def strStartsWith (s p : String) : Bool := charsLead p.data s.data

/-- JavaScript `s.includes(p)`. -/
def strHas (s p : String) : Bool := charsHave p.data s.data

/-- `type?.includes(p)` on an optional string: `undefined` yields false. -/
def optHas (s : Option String) (p : String) : Bool :=
  match s with
  | none => false
  | some t => strHas t p

/-- Decode a byte buffer as text, as `buffer.toString('utf8', ...)` does for
the ASCII prefixes the format sniffers inspect. -/
def bytesToChars (b : Bytes) : List Char := b.map Char.ofNat

/-- Encode an ASCII string as a byte buffer (test fixtures). -/
def strToBytes (s : String) : Bytes := s.data.map Char.toNat

/- ------------------------------------------------------------------
src/lib/validators.ts
------------------------------------------------------------------ -/

/-- `isPrivateIp` from src/lib/validators.ts: literal comparison against
three loopback names, then six textual prefix patterns (the regex
172.(16..31). is the sixteen concrete prefixes "172.16." .. "172.31."). -/
def isPrivateIp (hostname : String) : Bool :=
  if hostname == "localhost" || hostname == "127.0.0.1" || hostname == "::1" then
    true
  else
    strStartsWith hostname ("10.") ||
    (List.range' 16 16).any (fun k => strStartsWith hostname ("172." ++ toString k ++ ".")) ||
    strStartsWith hostname ("192.168.") ||
    strStartsWith hostname ("169.254.") ||
    strStartsWith hostname ("fc00:") ||
    strStartsWith hostname ("fe80:")

/-- The result of the WHATWG `new URL(...)` constructor, restricted to the
two fields the validator inspects. -/
structure URLRec where
  protocol : String
  hostname : String
deriving DecidableEq, Repr

/-- Valid characters after the first in a URL scheme. -/
def isSchemeChar (c : Char) : Bool :=
  c.isAlphanum || c == '+' || c == '-' || c == '.'

/-- Split a character list at the first occurrence of the separator;
none when the separator is absent. -/
def splitAtFirst (sep : Char) : List Char → Option (List Char × List Char)
  | [] => none
  | c :: rest =>
    if c == sep then some ([], rest)
    else
      match splitAtFirst sep rest with
      | none => none
      | some (l, r) => some (c :: l, r)

/-- Leading `scheme:` of a URL string, when syntactically well formed. -/
def splitScheme (cs : List Char) : Option (List Char × List Char) :=
  match splitAtFirst ':' cs with
  | none => none
  | some (before, after) =>
    match before with
    | [] => none
    | c :: rest =>
      if c.isAlpha && rest.all isSchemeChar then some (before, after) else none

/-- Schemes the WHATWG standard treats as special (authority mandatory). -/
def specialSchemes : List String := ["http", "https", "ws", "wss", "ftp", "file"]

/-- Authority portion after any userinfo: everything after the last '@'. -/
def afterLastAt (cs : List Char) : List Char :=
  (cs.splitOn '@').getLastD cs

/-- Extract the hostname from an authority section: an optional bracketed
IPv6 host or a lowercased domain, followed by an optional all-digit port.
Models the WHATWG host parser for the authority shapes this service meets. -/
def parseHostPort (auth : List Char) : Option String :=
  match afterLastAt auth with
  | '[' :: rest =>
    match splitAtFirst ']' rest with
    | none => none
    | some (inside, after) =>
      match after with
      | [] => some (String.mk ('[' :: inside ++ [']']))
      | ':' :: port =>
        if port.all Char.isDigit then some (String.mk ('[' :: inside ++ [']'])) else none
      | _ => none
  | host0 =>
    match splitAtFirst ':' host0 with
    | none => some (String.mk (host0.map Char.toLower))
    | some (h, port) =>
      if port.all Char.isDigit then some (String.mk (h.map Char.toLower)) else none

/-- Model of the WHATWG `new URL(...)` parser (as exercised through Zod's
url check and the validator's refine step), covering the
scheme://host[:port]/path shapes this service handles: a special scheme
requires a nonempty host, a non-special scheme with `//` takes whatever
authority follows, and a non-special scheme without `//` has an opaque path
and an empty hostname.  Returns none when the constructor would throw. -/
def parseURL (s : String) : Option URLRec :=
  match splitScheme s.data with
  | none => none
  | some (schemeCs, rest) =>
    let scheme := String.mk (schemeCs.map Char.toLower)
    let special := specialSchemes.contains scheme
    if charsLead ['/', '/'] rest then
      let authority := (rest.drop 2).takeWhile (fun c => !(c == '/' || c == '?' || c == '#'))
      match parseHostPort authority with
      | none => none
      | some host =>
        if special && host == "" then none else some ⟨scheme ++ ":", host⟩
    else if special then
      let rest2 := rest.dropWhile (fun c => c == '/' || c == '\\')
      let authority := rest2.takeWhile (fun c => !(c == '/' || c == '?' || c == '#'))
      match parseHostPort authority with
      | none => none
      | some host => if host == "" then none else some ⟨scheme ++ ":", host⟩
    else
      some ⟨scheme ++ ":", ""⟩

/-- The transform step of `createUrlValidator`: prefix https:// when the
string does not start with "http". -/
def addSchemeIfMissing (url : String) : String :=
  if strStartsWith url ("http") then url else "https://" ++ url

/-- The refine step of `createUrlValidator`, applied to the parsed URL:
protocol must be http or https, hostname nonempty, and — when the SSRF
toggle is on — not a private address. -/
def urlRefine (blockPrivateIps : Bool) (u : URLRec) : Bool :=
  if !(u.protocol == "http:" || u.protocol == "https:") then false
  else if u.hostname == "" then false
  else if blockPrivateIps && isPrivateIp u.hostname then false
  else true

/-- The full `createUrlValidator` chain from src/lib/validators.ts:
nonempty check, scheme-prefix transform, Zod url parse, then the refine.
True means the url query parameter is accepted. -/
def validateUrlParam (blockPrivateIps : Bool) (s : String) : Bool :=
  if s.length == 0 then false
  else
    match parseURL (addSchemeIfMissing s) with
    | none => false
    | some u => urlRefine blockPrivateIps u

/- ------------------------------------------------------------------
src/lib/favicon-finder.ts — discovery, ranking, ordered fetching
------------------------------------------------------------------ -/

/-- A discovered favicon candidate (the FaviconSource interface). -/
structure FaviconSource where
  url : String
  size : Option Nat := none
  format : Option String := none
  source : String
  score : Int
deriving DecidableEq, Repr

/-- Modelled from the spec: the sources import an `isDataUrl` helper from the
validators module, but the provided revision of that module does not contain
it; the spec describes these candidates as inline-data URIs, i.e. URLs with
the data: scheme. -/
def isDataUrl (url : String) : Bool := strStartsWith url ("data:")

/-- Parse the leading digits of a string as `parseInt(s, 10)` does:
NaN (no leading digits) becomes none. -/
def digitsToNat (ds : List Char) : Nat :=
  ds.foldl (fun n c => n * 10 + (c.toNat - 48)) 0

/-- The regex match (\d+)x\d+ attempted at one position. -/
def sizeMatchAt (cs : List Char) : Option Nat :=
  let ds := cs.takeWhile Char.isDigit
  let rest := cs.dropWhile Char.isDigit
  match ds, rest with
  | [], _ => none
  | _, 'x' :: r =>
    match r with
    | c :: _ => if c.isDigit then some (digitsToNat ds) else none
    | [] => none
  | _, _ => none

/-- Leftmost match of the regex (\d+)x\d+, returning the first group. -/
def scanForSize : List Char → Option Nat
  | [] => none
  | c :: rest =>
    match sizeMatchAt (c :: rest) with
    | some n => some n
    | none => scanForSize rest

/-- `parseSizes` from src/lib/favicon-finder.ts: first numeric width of a
"WxH" pattern, none for a missing or empty attribute or no match. -/
def parseSizes (sizes : Option String) : Option Nat :=
  match sizes with
  | none => none
  | some s => if s == "" then none else scanForSize s.data

/-- A JavaScript truthiness test on an optional number (0 is falsy). -/
def sizeTruthy : Option Nat → Bool
  | some n => n != 0
  | none => false

/-- A JavaScript truthiness test on an optional string ('' is falsy). -/
def strFalsy : Option String → Bool
  | none => true
  | some s => s == ""

/-- `calculateScore` from src/lib/favicon-finder.ts: base 50, vector bonus,
size-tier bonus, format-preference chain, and rel adjustments. -/
def calculateScore (size : Option Nat) (type : Option String) (rel : String) : Int :=
  let score : Int := 50
  let score := if optHas type ("svg") then score + 100 else score
  let score :=
    if sizeTruthy size then
      let n := size.getD 0
      if n ≥ 512 then score + 90
      else if n ≥ 256 then score + 80
      else if n ≥ 192 then score + 70
      else if n ≥ 128 then score + 60
      else if n ≥ 64 then score + 50
      else if n ≥ 32 then score + 40
      else score
    else score
  let score :=
    if optHas type ("png") then score + 20
    else if optHas type ("webp") then score + 15
    else if optHas type ("gif") then score + 10
    else if optHas type ("ico") then score + 5
    else score
  let score := if strHas rel ("apple-touch-icon") then score + 10 else score
  let score := if strHas rel ("mask-icon") then score - 10 else score
  score

/-- `resolveUrl` from src/lib/favicon-finder.ts. -/
def resolveUrl (url baseUrl : String) : String :=
  if isDataUrl url then url
  else if strStartsWith url ("http") then url
  else if strStartsWith url ("//") then "https:" ++ url
  else if strStartsWith url ("/") then baseUrl ++ url
  else baseUrl ++ "/" ++ url

/-- The attributes of one link[rel*=icon] element as cheerio reports them
(absent attributes are undefined). -/
structure LinkTag where
  href : Option String := none
  sizes : Option String := none
  type : Option String := none
  rel : Option String := none
deriving DecidableEq, Repr

/-- The mime portion of the regex ^data:([^;,]+) — none when the capture
would be empty. -/
def dataUrlMime (href : String) : Option String :=
  if strStartsWith href ("data:") then
    let mime := (href.data.drop 5).takeWhile (fun c => !(c == ';' || c == ','))
    if mime == [] then none else some (String.mk mime)
  else none

/-- JavaScript href.split('.').pop() with the || '' default. -/
def extAfterDot (href : String) : String :=
  String.mk ((href.data.splitOn '.').getLastD [])

/-- One iteration of the link-tag loop in `extractFromLinkTags`:
skip elements with a falsy href, default the type from the inline-data mime
or the file extension, parse the declared size, and score. -/
def linkTagCandidate (baseUrl : String) (t : LinkTag) : Option FaviconSource :=
  match t.href with
  | none => none
  | some href =>
    if href == "" then none
    else
      let type0 := t.type.getD ("")
      let rel := t.rel.getD ("")
      let type1 :=
        if type0 == "" then
          if isDataUrl href then (dataUrlMime href).getD ("")
          else extAfterDot href
        else type0
      let size := parseSizes t.sizes
      some ⟨resolveUrl href baseUrl, size, some type1, "link-tag",
            calculateScore size (some type1) rel⟩

/-- `extractFromLinkTags` over the parsed link elements. -/
def extractFromLinkTags (links : List LinkTag) (baseUrl : String) : List FaviconSource :=
  links.filterMap (linkTagCandidate baseUrl)

/-- One manifest icons[] entry. -/
structure ManifestIcon where
  src : Option String := none
  sizes : Option String := none
  type : Option String := none
deriving DecidableEq, Repr

/-- One iteration of the manifest loop in `extractFromManifest`. -/
def manifestCandidate (baseUrl : String) (icon : ManifestIcon) : Option FaviconSource :=
  match icon.src with
  | none => none
  | some src =>
    if src == "" then none
    else some ⟨resolveUrl src baseUrl, parseSizes icon.sizes, icon.type, "manifest", 40⟩

/-- Network-dependent inputs of the discovery stage: the parsed icon link
tags plus final post-redirect base URL when some HTML fetch attempt
succeeded (none when both attempts failed and fetchHtml threw), and the
parsed manifest icons when the manifest fetch succeeded. -/
structure DiscoveryEnv where
  htmlResult : Option (List LinkTag × String) := none
  manifest : Option (List ManifestIcon) := none

/-- One hex digit, uppercase. -/
def hexDigit (n : Nat) : Char := ("0123456789ABCDEF".data.getD n 'X')

/-- JavaScript encodeURIComponent restricted to ASCII input (the apostrophe,
also unreserved, is left out; no input here contains one). -/
def encodeURIComponent (s : String) : String :=
  String.mk (s.data.flatMap (fun c =>
    if c.isAlphanum || c == '-' || c == '_' || c == '.' || c == '!' ||
       c == '~' || c == '*' || c == '(' || c == ')' then [c]
    else ['%', hexDigit (c.toNat / 16), hexDigit (c.toNat % 16)]))

/-- Configuration fields of AppConfig consumed by the embedded core. -/
structure AppConfig where
  BLOCK_PRIVATE_IPS : Bool := true
  MAX_IMAGE_SIZE : Nat := 5242880
  USE_FALLBACK_API : Bool := false

/-- One insertion step of the stable descending sort: the new element
moves past exactly the elements of strictly greater score, so it lands
after every earlier element of equal score. -/
def insertByScore (x : FaviconSource) : List FaviconSource → List FaviconSource
  | [] => [x]
  | y :: ys => if x.score < y.score then y :: insertByScore x ys else x :: y :: ys

/-- The stable descending-score sort at the end of `findFavicons`:
favicons.sort((a, b) => b.score - a.score).  JavaScript Array.prototype.sort
is specified to be stable, and a stable sort under a total preorder is
extensionally unique, so it is modelled by this stable insertion sort. -/
def sortByScore : List FaviconSource → List FaviconSource
  | [] => []
  | x :: xs => insertByScore x (sortByScore xs)

/-- `findFavicons` from src/lib/favicon-finder.ts.  The try block collects
link-tag candidates, the two well-known-path candidates and the manifest
candidates, but only when fetchHtml succeeded: when it throws, the catch
discards everything gathered so far.  The Google fallback-API candidate is
appended outside the try; none models the whole call rejecting when the URL
constructor throws there. -/
def findFavicons (url : String) (config : AppConfig) (env : DiscoveryEnv)
    (size : Option Nat) : Option (List FaviconSource) :=
  let favicons : List FaviconSource :=
    match env.htmlResult with
    | some (links, finalBaseUrl) =>
      extractFromLinkTags links finalBaseUrl
      ++ [⟨finalBaseUrl ++ "/favicon.ico", none, none, "fallback", 10⟩,
          ⟨finalBaseUrl ++ "/apple-touch-icon.png", none, none, "fallback", 20⟩]
      ++ (match env.manifest with
          | some icons => icons.filterMap (manifestCandidate finalBaseUrl)
          | none => [])
    | none => []
  if config.USE_FALLBACK_API then
    match parseURL (addSchemeIfMissing url.trim) with
    | none => none
    | some parsed =>
      let googleUrl := "https://www.google.com/s2/favicons?domain="
        ++ encodeURIComponent ("https://" ++ parsed.hostname)
        ++ "&sz=" ++ toString (size.getD 64)
      some (sortByScore (favicons ++ [⟨googleUrl, none, none, "fallback-api", 1⟩]))
  else
    some (sortByScore favicons)

/-- `detectFormat` from src/lib/favicon-finder.ts: magic numbers first, then
the declared hint, defaulting to png. -/
def detectFormat (buffer : Bytes) (hint : Option String) : String :=
  if byteAt buffer 0 == 0x89 && byteAt buffer 1 == 0x50 then "png"
  else if byteAt buffer 0 == 0xff && byteAt buffer 1 == 0xd8 then "jpg"
  else if byteAt buffer 0 == 0x00 && byteAt buffer 1 == 0x00 then "ico"
  else if byteAt buffer 0 == 0x52 && byteAt buffer 1 == 0x49 then "webp"
  else if byteAt buffer 0 == 0x47 && byteAt buffer 1 == 0x49 && byteAt buffer 2 == 0x46 then "gif"
  else if charsHave ("<svg".data) (bytesToChars (buffer.take 5)) then "svg"
  else
    let hintStr := hint.getD ("")
    if strHas hintStr ("png") then "png"
    else if strHas hintStr ("jpeg") || strHas hintStr ("jpg") then "jpg"
    else if strHas hintStr ("webp") then "webp"
    else if strHas hintStr ("svg") then "svg"
    else if strHas hintStr ("gif") then "gif"
    else if strHas hintStr ("ico") then "ico"
    else "png"

/-- The accepted favicon returned by `fetchBestFavicon`. -/
structure FetchedFavicon where
  data : Bytes
  format : String
  source : String
  url : String
deriving DecidableEq, Repr

/-- Network and decoder behavior of the fetch stage: fetch yields the
response body for a successful transfer (none for a transport error or a
non-ok status), parseDataUrl decodes an inline-data URL (a helper imported
from the image-processor module but absent from the provided revision;
modelled as an oracle), and validateImage is the sharp-based image sniff. -/
structure FetchEnv where
  fetch : String → Option Bytes
  parseDataUrl : String → Option (Bytes × Option String)
  validateImage : Bytes → Bool

/-- The per-candidate content acquisition inside `fetchBestFavicon`:
inline-data URLs are decoded, everything else is fetched; none means the
candidate is abandoned (failed decode, transport error, non-ok status). -/
def faviconContent (env : FetchEnv) (f : FaviconSource) : Option (Bytes × Option String) :=
  if isDataUrl f.url then env.parseDataUrl f.url
  else (env.fetch f.url).map (fun b => (b, none))

/-- Acceptance test a candidate must pass inside `fetchBestFavicon`:
content obtained, byte length in (0, MAX_IMAGE_SIZE], and a passing
image-validity sniff. -/
def acceptsCandidate (env : FetchEnv) (maxSize : Nat) (f : FaviconSource) : Bool :=
  match faviconContent env f with
  | none => false
  | some (b, _) => decide (0 < b.length) && decide (b.length ≤ maxSize) && env.validateImage b

/-- `fetchBestFavicon` from src/lib/favicon-finder.ts: try candidates
strictly in list order, return the first acceptance, none on exhaustion. -/
def fetchBestFavicon (favicons : List FaviconSource) (config : AppConfig)
    (env : FetchEnv) : Option FetchedFavicon :=
  match favicons with
  | [] => none
  | f :: rest =>
    match faviconContent env f with
    | none => fetchBestFavicon rest config env
    | some (buffer, mimeType) =>
      if decide (0 < buffer.length) && decide (buffer.length ≤ config.MAX_IMAGE_SIZE)
          && env.validateImage buffer then
        some ⟨buffer, detectFormat buffer (mimeType.orElse (fun _ => f.format)),
              f.source, f.url⟩
      else fetchBestFavicon rest config env

/- ------------------------------------------------------------------
src/lib/format-detector.ts
------------------------------------------------------------------ -/

/-- `isSvg` from src/lib/format-detector.ts: the first 100 bytes, decoded
and lowercased, contain an svg or xml opening tag. -/
def isSvg (buffer : Bytes) : Bool :=
  let header := (bytesToChars (buffer.take 100)).map Char.toLower
  charsHave ("<svg".data) header || charsHave ("<?xml".data) header

/-- `detectFormatFromBuffer` from src/lib/format-detector.ts. -/
def detectFormatFromBuffer (buffer : Bytes) : String :=
  if buffer.length < 2 then "png"
  else if byteAt buffer 0 == 0x42 && byteAt buffer 1 == 0x4d then "bmp"
  else if buffer.length < 3 then "png"
  else if byteAt buffer 0 == 0xff && byteAt buffer 1 == 0xd8 && byteAt buffer 2 == 0xff then "jpeg"
  else if byteAt buffer 0 == 0x47 && byteAt buffer 1 == 0x49 && byteAt buffer 2 == 0x46 then "gif"
  else if buffer.length < 4 then "png"
  else if byteAt buffer 0 == 0x00 && byteAt buffer 1 == 0x00 &&
          byteAt buffer 2 == 0x01 && byteAt buffer 3 == 0x00 then "ico"
  else if (byteAt buffer 0 == 0x52 && byteAt buffer 1 == 0x49 &&
           byteAt buffer 2 == 0x46 && byteAt buffer 3 == 0x46) &&
          (decide (buffer.length ≥ 12) && byteAt buffer 8 == 0x57 && byteAt buffer 9 == 0x45 &&
           byteAt buffer 10 == 0x42 && byteAt buffer 11 == 0x50) then "webp"
  else if isSvg buffer then "svg"
  else if decide (buffer.length ≥ 12) && byteAt buffer 4 == 0x66 && byteAt buffer 5 == 0x74 &&
          byteAt buffer 6 == 0x79 && byteAt buffer 7 == 0x70 &&
          (let brand := String.mk (bytesToChars ((buffer.drop 8).take 4))
           brand == "avif" || brand == "avis") then "avif"
  else "png"

/-- `getContentTypeFromFormat` from src/lib/format-detector.ts. -/
def getContentTypeFromFormat (format : String) : String :=
  let f := format.toLower
  if f == "png" then "image/png"
  else if f == "jpg" then "image/jpeg"
  else if f == "jpeg" then "image/jpeg"
  else if f == "ico" then "image/x-icon"
  else if f == "webp" then "image/webp"
  else if f == "svg" then "image/svg+xml"
  else if f == "gif" then "image/gif"
  else if f == "bmp" then "image/bmp"
  else if f == "avif" then "image/avif"
  else "image/png"

/- ------------------------------------------------------------------
src/lib/image-processor.ts
------------------------------------------------------------------ -/

/-- The ImageProcessOptions interface. -/
structure ImageProcessOptions where
  size : Option Nat := none
  format : Option String := none
  quality : Option Nat := none
deriving DecidableEq, Repr

/-- The ProcessedImage interface. -/
structure ProcessedImage where
  data : Bytes
  format : String
  width : Nat
  height : Nat
  size : Nat
deriving DecidableEq, Repr

/-- The fields of a sharp metadata() result that the code reads. -/
structure SharpMeta where
  format : Option String := none
  width : Option Nat := none
  height : Option Nat := none
deriving DecidableEq, Repr

/-- Behavior of the external sharp library on this call's input:
metadata is sharp(imageData).metadata() (none when it throws), processed is
the pipeline result paired with the output metadata (none when toBuffer()
or the output metadata() throws). -/
structure SharpOracle where
  metadata : Option SharpMeta := none
  processed : Option (Bytes × SharpMeta) := none
deriving DecidableEq, Repr

/-- JavaScript a || b for an optional string where '' is falsy. -/
def strOr (a : Option String) (b : String) : String :=
  match a with
  | none => b
  | some s => if s == "" then b else s

/-- The SVG pass-through guard at the top of `processImage`:
isSvg(imageData) && !options.size && (!options.format || format === 'svg'). -/
def svgPassThru (imageData : Bytes) (options : ImageProcessOptions) : Bool :=
  isSvg imageData && !sizeTruthy options.size &&
    (strFalsy options.format || options.format == some ("svg"))

/-- The resize/convert/encode pipeline of `processImage` together with the
outer catch: a successful run reports the actual output bytes and metadata;
any throw degrades to the original bytes with magic-number detection and
zero dimensions. -/
def runSharpPipeline (imageData : Bytes) (options : ImageProcessOptions)
    (o : SharpOracle) (detectedFormat : String) : ProcessedImage :=
  match o.processed with
  | some (out, om) =>
    ⟨out, strOr om.format (strOr options.format detectedFormat),
     om.width.getD 0, om.height.getD 0, out.length⟩
  | none =>
    ⟨imageData, detectFormatFromBuffer imageData, 0, 0, imageData.length⟩

/-- `processImage` from src/lib/image-processor.ts. -/
def processImage (imageData : Bytes) (options : ImageProcessOptions)
    (o : SharpOracle) : ProcessedImage :=
  if svgPassThru imageData options then
    ⟨imageData, "svg", 0, 0, imageData.length⟩
  else
    match o.metadata with
    | some m => runSharpPipeline imageData options o (strOr m.format ("png"))
    | none =>
      let detectedFormat := detectFormatFromBuffer imageData
      if !sizeTruthy options.size && strFalsy options.format then
        ⟨imageData, detectedFormat, 0, 0, imageData.length⟩
      else runSharpPipeline imageData options o detectedFormat

/- ------------------------------------------------------------------
src/index.ts — the main favicon route and the fallback handler
------------------------------------------------------------------ -/

/-- The response query parameter. -/
inductive OutputFormat where
  | image
  | json
deriving DecidableEq, Repr

/-- The validated query parameters produced by queryParamsSchema. -/
structure QueryParams where
  url : String
  response : OutputFormat
  size : Option Nat
  format : Option String
  default : Option String
deriving DecidableEq, Repr

/-- The raw query strings of one request before validation (the path
parameter plus the four query parameters; absent ones are undefined). -/
structure RawQuery where
  url : Option String := none
  response : Option String := none
  size : Option String := none
  format : Option String := none
  default : Option String := none

/-- parseInt(s, 10): leading whitespace skipped, leading digits parsed,
NaN (no digits) is none. -/
def parseIntLeading (s : String) : Option Nat :=
  let ds := (s.data.dropWhile (fun c => c == ' ')).takeWhile Char.isDigit
  if ds == [] then none else some (digitsToNat ds)

/-- The response enum field: defaults to image, rejects anything else. -/
def parseResponseParam : Option String → Option OutputFormat
  | none => some OutputFormat.image
  | some s =>
    if s == "image" then some OutputFormat.image
    else if s == "json" then some OutputFormat.json
    else none

/-- The size field: optional, transformed with parseInt then bounded to
[16, 512]; the outer none is a validation failure. -/
def parseSizeParam : Option String → Option (Option Nat)
  | none => some none
  | some v =>
    if v == "" then some none
    else
      match parseIntLeading v with
      | none => none
      | some n => if 16 ≤ n ∧ n ≤ 512 then some (some n) else none

/-- The format enum field {png, jpg, webp}, optional. -/
def parseFormatParam : Option String → Option (Option String)
  | none => some none
  | some s =>
    if s == "png" || s == "jpg" || s == "webp" then some (some s) else none

/-- The default field: an optional URL validated with the Zod url check. -/
def parseDefaultParam : Option String → Option (Option String)
  | none => some none
  | some d => if (parseURL d).isSome then some (some d) else none

/-- queryParamsSchema.safeParse over the raw request values; none is a
validation failure answered with status 400.  The url field carries the
scheme-prefix transform, as the schema's transformed output does. -/
def parseQueryParams (blockPrivateIps : Bool) (q : RawQuery) : Option QueryParams :=
  match q.url with
  | none => none
  | some u =>
    if validateUrlParam blockPrivateIps u then
      match parseResponseParam q.response, parseSizeParam q.size,
            parseFormatParam q.format, parseDefaultParam q.default with
      | some r, some s, some f, some d => some ⟨addSchemeIfMissing u, r, s, f, d⟩
      | _, _, _, _ => none
    else none

/-- The parts of an HTTP response the embedded handlers determine. -/
structure HttpResponse where
  status : Nat
  body : Bytes
  contentType : String
deriving DecidableEq, Repr

/-- The cached fallback record of src/lib/fallback-image.ts. -/
structure FallbackRecord where
  buffer : Bytes
  format : String
  sourceUrl : String
deriving DecidableEq, Repr

/-- Per-request environment of the main route: the outcome of the raced
discovery-and-fetch sequence (none when every tier failed, the promise
rejected, or the aggregate deadline expired), the fallback-image singleton
state, the outcome of fetching a per-request custom default (none when that
fetch threw or was non-ok), and the sharp behavior for this request. -/
structure RequestEnv where
  faviconResult : Option FetchedFavicon := none
  cachedFallback : Option FallbackRecord := none
  customDefault : Option FallbackRecord := none
  sharp : SharpOracle := {}

/-- `handleFallback` from src/index.ts: resolve the default image (custom
per-request URL, else the cached singleton — getCachedFallback throws when
uninitialized, caught as status 500), optionally process it, and answer
with status 200 in both response modes. -/
def handleFallback (env : RequestEnv) (response : OutputFormat)
    (defaultImage : Option String) (size : Option Nat) (format : Option String) :
    HttpResponse :=
  let record : Option FallbackRecord :=
    match defaultImage with
    | some _ => env.customDefault
    | none => env.cachedFallback
  match record with
  | none => ⟨500, [], "application/json"⟩
  | some r =>
    let (buffer, imageFormat) :=
      if size.isSome || format.isSome then
        let p := processImage r.buffer ⟨size, format, none⟩ env.sharp
        (p.data, p.format)
      else (r.buffer, r.format)
    match response with
    | OutputFormat.json => ⟨200, [], "application/json"⟩
    | OutputFormat.image =>
      ⟨200, buffer, if imageFormat == "svg" then "image/svg+xml" else "image/png"⟩

/-- The main favicon route of `createApp` in src/index.ts: validate the
query, race discovery and fetch, fall back when nothing was found, else
process and serve the favicon. -/
def handleFaviconRequest (config : AppConfig) (env : RequestEnv)
    (q : RawQuery) : HttpResponse :=
  match parseQueryParams config.BLOCK_PRIVATE_IPS q with
  | none => ⟨400, [], "application/json"⟩
  | some p =>
    match env.faviconResult with
    | none => handleFallback env p.response p.default p.size p.format
    | some favicon =>
      let processed := processImage favicon.data ⟨p.size, p.format, none⟩ env.sharp
      match p.response with
      | OutputFormat.json => ⟨200, [], "application/json"⟩
      | OutputFormat.image =>
        ⟨200, processed.data, getContentTypeFromFormat processed.format⟩

/- ------------------------------------------------------------------
Theorems
------------------------------------------------------------------ -/

/-- The spec's size-tier bonus: the largest applicable tier only. -/
def sizeTierBonus : Option Nat → Int
  | none => 0
  | some n =>
    if n ≥ 512 then 90
    else if n ≥ 256 then 80
    else if n ≥ 192 then 70
    else if n ≥ 128 then 60
    else if n ≥ 64 then 50
    else if n ≥ 32 then 40
    else 0

/-- The spec's format bonus: +20 PNG, +15 WebP, +10 GIF, +5 ICO, else 0. -/
def formatBonus (type : Option String) : Int :=
  if optHas type ("png") then 20
  else if optHas type ("webp") then 15
  else if optHas type ("gif") then 10
  else if optHas type ("ico") then 5
  else 0

/-- The claim's closed-form scoring formula: 50, plus 100 for a vector
hint, plus the size tier, plus the format bonus, plus 10 for an
apple-touch relation and minus 10 for a mask relation. -/
def scoreSpec (size : Option Nat) (type : Option String) (rel : String) : Int :=
  50
  + (if optHas type ("svg") then 100 else 0)
  + sizeTierBonus size
  + formatBonus type
  + (if strHas rel ("apple-touch-icon") then 10 else 0)
  - (if strHas rel ("mask-icon") then 10 else 0)

/-- The svg bonus step of calculateScore, as an added summand. -/
theorem svgStep (type : Option String) (s : Int) :
    (if optHas type ("svg") then s + 100 else s)
      = s + (if optHas type ("svg") then 100 else 0) := by
  split_ifs <;> omega

/-- The size-tier step of calculateScore, as an added summand. -/
theorem tierStep (size : Option Nat) (s : Int) :
    (if sizeTruthy size then
       let n := size.getD 0
       if n ≥ 512 then s + 90
       else if n ≥ 256 then s + 80
       else if n ≥ 192 then s + 70
       else if n ≥ 128 then s + 60
       else if n ≥ 64 then s + 50
       else if n ≥ 32 then s + 40
       else s
     else s) = s + sizeTierBonus size := by
  cases size with
  | none => simp [sizeTruthy, sizeTierBonus]
  | some n =>
    by_cases h0 : n = 0
    · subst h0; simp [sizeTruthy, sizeTierBonus]
    · have ht : sizeTruthy (some n) = true := by simp [sizeTruthy, h0]
      rw [ht]
      simp only [if_true, Option.getD_some]
      simp only [sizeTierBonus]
      split_ifs <;> omega

/-- The format-preference step of calculateScore, as an added summand. -/
theorem formatStep (type : Option String) (s : Int) :
    (if optHas type ("png") then s + 20
     else if optHas type ("webp") then s + 15
     else if optHas type ("gif") then s + 10
     else if optHas type ("ico") then s + 5
     else s) = s + formatBonus type := by
  unfold formatBonus; split_ifs <;> omega

/-- The apple-touch relation step of calculateScore, as an added summand. -/
theorem appleStep (rel : String) (s : Int) :
    (if strHas rel ("apple-touch-icon") then s + 10 else s)
      = s + (if strHas rel ("apple-touch-icon") then 10 else 0) := by
  split_ifs <;> omega

/-- The mask relation step of calculateScore, as a subtracted summand. -/
theorem maskStep (rel : String) (s : Int) :
    (if strHas rel ("mask-icon") then s - 10 else s)
      = s - (if strHas rel ("mask-icon") then 10 else 0) := by
  split_ifs <;> omega

/-- C3: the candidate score is a pure deterministic function of the
declared size, format hint and relation text, equal to the claim's
closed-form sum; consequently an svg hint with no declared size scores
strictly higher than a 16x16 png. -/
theorem calculateScore_closed_form :
    (∀ size type rel, calculateScore size type rel = scoreSpec size type rel) ∧
    calculateScore none (some ("image/svg+xml")) ("icon") >
      calculateScore (some 16) (some ("image/png")) ("icon") := by
  constructor
  · intro size type rel
    unfold calculateScore scoreSpec
    dsimp only []
    rw [maskStep, appleStep, formatStep, tierStep, svgStep]
  · decide

/-- The claim's description of a private host: one of the three loopback
literals, or one of the enumerated private/link-local textual prefixes
(10., 172.16.-172.31., 192.168., 169.254., fc00:, fe80:). -/
def privateHostSpec (h : String) : Prop :=
  h = "localhost" ∨ h = "127.0.0.1" ∨ h = "::1" ∨
  strStartsWith h ("10.") = true ∨
  (∃ k, 16 ≤ k ∧ k ≤ 31 ∧ strStartsWith h ("172." ++ toString k ++ ".") = true) ∨
  strStartsWith h ("192.168.") = true ∨
  strStartsWith h ("169.254.") = true ∨
  strStartsWith h ("fc00:") = true ∨
  strStartsWith h ("fe80:") = true

/-- Any hostname matching the claim's private-host description is flagged
by the source's isPrivateIp. -/
theorem isPrivateIp_of_spec (h : String) (hp : privateHostSpec h) :
    isPrivateIp h = true := by
  unfold isPrivateIp
  split_ifs with hl
  · rfl
  · simp only [Bool.or_eq_true, List.any_eq_true]
    rcases hp with h1 | h1 | h1 | h1 | ⟨k, hk1, hk2, hk⟩ | h1 | h1 | h1 | h1
    · exact absurd (by simp [h1]) hl
    · exact absurd (by simp [h1]) hl
    · exact absurd (by simp [h1]) hl
    · exact Or.inl (Or.inl (Or.inl (Or.inl (Or.inl h1))))
    · refine Or.inl (Or.inl (Or.inl (Or.inl (Or.inr ⟨k, ?_, hk⟩))))
      rw [List.mem_range']
      exact ⟨k - 16, by omega, by omega⟩
    · exact Or.inl (Or.inl (Or.inl (Or.inr h1)))
    · exact Or.inl (Or.inl (Or.inr h1))
    · exact Or.inl (Or.inr h1)
    · exact Or.inr h1

/-- C6: with the SSRF toggle enabled the validator's refine step rejects
every parsed URL whose hostname matches the claim's private-host
description; the five example hostnames are rejected end-to-end when the
toggle is on and accepted when it is off. -/
theorem ssrf_toggle_blocks_private_hosts :
    (∀ u : URLRec, privateHostSpec u.hostname → urlRefine true u = false) ∧
    (validateUrlParam true ("127.0.0.1") = false ∧
     validateUrlParam true ("10.1.2.3") = false ∧
     validateUrlParam true ("192.168.0.1") = false ∧
     validateUrlParam true ("169.254.1.1") = false ∧
     validateUrlParam true ("localhost") = false) ∧
    (validateUrlParam false ("127.0.0.1") = true ∧
     validateUrlParam false ("10.1.2.3") = true ∧
     validateUrlParam false ("192.168.0.1") = true ∧
     validateUrlParam false ("169.254.1.1") = true ∧
     validateUrlParam false ("localhost") = true) := by
  refine ⟨?_, by decide, by decide⟩
  intro u hp
  have hpriv := isPrivateIp_of_spec u.hostname hp
  unfold urlRefine
  split_ifs with h1 h2 <;> simp_all

/-- Witness for C6 at the concrete parsed URL https://10.1.2.3. -/
theorem ssrf_toggle_witness :
    urlRefine true ⟨"https:", "10.1.2.3"⟩ = false ∧ privateHostSpec ("10.1.2.3") :=
  have hp : privateHostSpec ("10.1.2.3") :=
    Or.inr (Or.inr (Or.inr (Or.inl (by decide))))
  ⟨ssrf_toggle_blocks_private_hosts.1 ⟨"https:", "10.1.2.3"⟩ hp, hp⟩

/-- C10: the private-address check is literal/prefix matching only:
127.0.0.2 is a loopback address outside the three literals, so it passes
both isPrivateIp and the full validation chain even with the SSRF toggle
enabled. -/
theorem privateIp_check_is_literal_only :
    isPrivateIp ("127.0.0.2") = false ∧
    parseURL (addSchemeIfMissing ("127.0.0.2")) = some ⟨"https:", "127.0.0.2"⟩ ∧
    validateUrlParam true ("127.0.0.2") = true := by decide

/-- C9 counterexample: ftp://example.com parses to a URL with scheme ftp,
outside {http, https}, yet the validator accepts it with either toggle —
the transform prefixes https:// because the string does not start with
"http", producing https://ftp://example.com, which parses with protocol
https: and hostname ftp. -/
theorem scheme_rejection_bypassed_for_ftp :
    parseURL ("ftp://example.com") = some ⟨"ftp:", "example.com"⟩ ∧
    parseURL (addSchemeIfMissing ("ftp://example.com")) = some ⟨"https:", "ftp"⟩ ∧
    validateUrlParam true ("ftp://example.com") = true ∧
    validateUrlParam false ("ftp://example.com") = true := by decide

/-- A nonempty leading pattern never matches the empty character list. -/
theorem strStartsWith_ne_empty (s p : String) (hp : p.data ≠ [])
    (h : strStartsWith s p = true) : s.length ≠ 0 := by
  intro hlen
  have hs : s.data = [] := by
    cases s with
    | mk data => cases data with
      | nil => rfl
      | cons c cs => simp [String.length] at hlen
  unfold strStartsWith at h
  rw [hs] at h
  cases hd : p.data with
  | nil => exact hp hd
  | cons c cs => rw [hd] at h; simp [charsLead] at h

/-- When the string already starts with "http" the transform leaves it
unchanged. -/
theorem addSchemeIfMissing_of_http (s : String)
    (h : strStartsWith s ("http") = true) : addSchemeIfMissing s = s := by
  unfold addSchemeIfMissing
  rw [h]
  simp

/-- When the normalized string parses, the whole validator chain reduces
to the refine step on the parse result. -/
theorem validateUrlParam_of_parse (b : Bool) (s : String) (u : URLRec)
    (hparse : parseURL (addSchemeIfMissing s) = some u) :
    validateUrlParam b s = urlRefine b u := by
  unfold validateUrlParam
  split_ifs with h0
  · exfalso
    have hs : s = "" := by
      cases s with
      | mk data => cases data with
        | nil => rfl
        | cons c cs => simp [String.length] at h0
    subst hs
    rw [show parseURL (addSchemeIfMissing ("")) = none from rfl] at hparse
    exact Option.noConfusion hparse
  · rw [hparse]

/-- C9 amended: validation fails with InvalidInput when the string is
empty, when the normalized string is unparsable, when it yields an empty
hostname, and — for strings already starting with "http", the only ones the
transform leaves alone — when the parsed scheme is outside {http, https}.
(A string not starting with "http" is prefixed with https:// first, so a
foreign scheme such as ftp: never reaches the scheme check.) -/
theorem invalidInput_rejections (b : Bool) :
    validateUrlParam b ("") = false ∧
    (∀ s, parseURL (addSchemeIfMissing s) = none → validateUrlParam b s = false) ∧
    (∀ s u, strStartsWith s ("http") = true → parseURL s = some u →
      u.protocol ≠ "http:" → u.protocol ≠ "https:" → validateUrlParam b s = false) ∧
    (∀ s u, parseURL (addSchemeIfMissing s) = some u → u.hostname = "" →
      validateUrlParam b s = false) := by
  refine ⟨rfl, ?_, ?_, ?_⟩
  · intro s h
    unfold validateUrlParam
    split_ifs with h0
    · rfl
    · rw [h]
  · intro s u hhttp hparse h1 h2
    rw [validateUrlParam_of_parse b s u
      (by rw [addSchemeIfMissing_of_http s hhttp]; exact hparse)]
    unfold urlRefine
    simp [h1, h2]
  · intro s u hparse hhost
    rw [validateUrlParam_of_parse b s u hparse]
    unfold urlRefine
    rw [hhost]
    simp

/-- Witness for the amended C9 at three concrete inputs: a foreign scheme
spelled with a leading "http" (rejected by the scheme check), an
unparsable input, and the empty string. -/
theorem invalidInput_witness :
    strStartsWith ("httpx://example.com") ("http") = true ∧
    parseURL ("httpx://example.com") = some ⟨"httpx:", "example.com"⟩ ∧
    validateUrlParam true ("httpx://example.com") = false ∧
    validateUrlParam true ("http://[") = false :=
  ⟨by decide, by decide,
   (invalidInput_rejections true).2.2.1 ("httpx://example.com")
     ⟨"httpx:", "example.com"⟩ (by decide) (by decide) (by decide) (by decide),
   (invalidInput_rejections true).2.1 ("http://[") (by decide)⟩

/-- C8: the ranking step returns a permutation of the full candidate list
(nothing discarded), sorted in non-increasing score order, and candidates
with equal scores keep their original discovery order (expressed as:
filtering the ranked list at any fixed score yields exactly the filtered
input list, in order). -/
theorem insertByScore_perm (x : FaviconSource) (l : List FaviconSource) :
    (insertByScore x l).Perm (x :: l) := by
  induction l with
  | nil => exact List.Perm.refl _
  | cons y ys ih =>
    unfold insertByScore
    split_ifs
    · exact (ih.cons y).trans (List.Perm.swap x y ys)
    · exact List.Perm.refl _

theorem insertByScore_sorted (x : FaviconSource) (l : List FaviconSource)
    (h : l.Pairwise (fun a b => b.score ≤ a.score)) :
    (insertByScore x l).Pairwise (fun a b => b.score ≤ a.score) := by
  induction l with
  | nil => simp [insertByScore]
  | cons y ys ih =>
    rw [List.pairwise_cons] at h
    obtain ⟨hy, hys⟩ := h
    unfold insertByScore
    split_ifs with hlt
    · rw [List.pairwise_cons]
      refine ⟨?_, ih hys⟩
      intro b hb
      have hb2 := (insertByScore_perm x ys).mem_iff.mp hb
      rcases List.mem_cons.mp hb2 with hb3 | hb3
      · subst hb3; omega
      · exact hy b hb3
    · rw [List.pairwise_cons]
      refine ⟨?_, by rw [List.pairwise_cons]; exact ⟨hy, hys⟩⟩
      intro b hb
      rcases List.mem_cons.mp hb with hb3 | hb3
      · subst hb3; omega
      · have := hy b hb3; omega

theorem insertByScore_filter (x : FaviconSource) (l : List FaviconSource) (s : Int) :
    (insertByScore x l).filter (fun f => f.score == s)
      = if x.score == s
        then x :: l.filter (fun f => f.score == s)
        else l.filter (fun f => f.score == s) := by
  induction l with
  | nil =>
    by_cases hxs : (x.score == s) = true <;> simp [insertByScore, hxs]
  | cons y ys ih =>
    unfold insertByScore
    by_cases hlt : x.score < y.score
    · rw [if_pos hlt]
      by_cases hxs : (x.score == s) = true
      · have hx2 : x.score = s := by simpa using hxs
        have hys : (y.score == s) = false := by
          simp only [beq_eq_false_iff_ne, ne_eq]
          omega
        simp [List.filter_cons, ih, hxs, hys]
      · simp [List.filter_cons, ih, hxs]
    · rw [if_neg hlt]
      rw [List.filter_cons]

/-- The ranking sort is a permutation of its input (helper shared by the
membership arguments below). -/
theorem sortByScore_perm (l : List FaviconSource) : (sortByScore l).Perm l := by
  induction l with
  | nil => exact List.Perm.refl _
  | cons x xs ih =>
    exact (insertByScore_perm x (sortByScore xs)).trans (ih.cons x)

/-- C8: the ranking step returns a permutation of the full candidate list
(nothing discarded), sorted in non-increasing score order, and candidates
with equal scores keep their original discovery order (expressed as:
filtering the ranked list at any fixed score yields exactly the filtered
input list, in order). -/
theorem sortByScore_stable_descending (l : List FaviconSource) :
    (sortByScore l).Perm l ∧
    (sortByScore l).Pairwise (fun a b => b.score ≤ a.score) ∧
    ∀ s : Int, (sortByScore l).filter (fun f => f.score == s)
      = l.filter (fun f => f.score == s) := by
  refine ⟨sortByScore_perm l, ?_, ?_⟩
  · induction l with
    | nil => simp [sortByScore]
    | cons x xs ih => exact insertByScore_sorted x (sortByScore xs) ih
  · intro s
    induction l with
    | nil => rfl
    | cons x xs ih =>
      show (insertByScore x (sortByScore xs)).filter (fun f => f.score == s) = _
      rw [insertByScore_filter, List.filter_cons, ih]

/-- A configuration with the remote fallback API disabled. -/
def cfgNoRemote : AppConfig := {}

/-- Discovery inputs for a request whose HTML fetch failed twice
(fetchHtml threw) and whose manifest was never attempted. -/
def envHtmlDown : DiscoveryEnv := {}

/-- C5 counterexample: when both HTML fetch attempts fail, the catch in
findFavicons swallows everything gathered inside the try — including the
two well-known-path candidates, which are pushed only after a successful
fetchHtml — so the discovery output is empty and in particular contains no
/favicon.ico candidate, contradicting "regardless of whether the HTML
fetch succeeded or failed". -/
theorem wellKnown_absent_on_html_failure :
    findFavicons ("example.com") cfgNoRemote envHtmlDown none = some [] ∧
    ¬ ∃ f, f ∈ (findFavicons ("example.com") cfgNoRemote envHtmlDown none).getD []
        ∧ f.url = "https://example.com/favicon.ico" := by
  constructor
  · rfl
  · rintro ⟨f, hf, -⟩
    rw [show findFavicons ("example.com") cfgNoRemote envHtmlDown none = some []
      from rfl] at hf
    simp at hf

/-- C5 amended: the two well-known-path candidates (post-redirect origin
plus /favicon.ico at score 10 and /apple-touch-icon.png at score 20) are
always in the discovery output whenever the HTML fetch succeeded; when it
fails they are absent along with every other HTML-derived candidate. -/
theorem wellKnown_present_on_html_success (url : String) (config : AppConfig)
    (env : DiscoveryEnv) (size : Option Nat) (links : List LinkTag)
    (base : String) (l : List FaviconSource)
    (hhtml : env.htmlResult = some (links, base))
    (hres : findFavicons url config env size = some l) :
    (⟨base ++ "/favicon.ico", none, none, "fallback", 10⟩ : FaviconSource) ∈ l ∧
    (⟨base ++ "/apple-touch-icon.png", none, none, "fallback", 20⟩ : FaviconSource) ∈ l := by
  unfold findFavicons at hres
  rw [hhtml] at hres
  dsimp only [] at hres
  constructor <;>
  · split at hres
    · split at hres
      · exact Option.noConfusion hres
      · have hl := Option.some.inj hres
        subst hl
        exact (sortByScore_perm _).mem_iff.mpr (by simp [List.mem_append])
    · have hl := Option.some.inj hres
      subst hl
      exact (sortByScore_perm _).mem_iff.mpr (by simp [List.mem_append])

/-- Discovery inputs for a request whose HTML fetch succeeded with no icon
link tags and final origin https://example.com. -/
def envHtmlUp : DiscoveryEnv := { htmlResult := some ([], "https://example.com") }

/-- Witness for the amended C5 at a successful HTML fetch with empty
markup: both well-known candidates are in the (sorted) output. -/
theorem wellKnown_witness :
    (⟨"https://example.com/favicon.ico", none, none, "fallback", 10⟩ : FaviconSource) ∈
      [(⟨"https://example.com/apple-touch-icon.png", none, none, "fallback", 20⟩ : FaviconSource),
       ⟨"https://example.com/favicon.ico", none, none, "fallback", 10⟩] ∧
    (⟨"https://example.com/apple-touch-icon.png", none, none, "fallback", 20⟩ : FaviconSource) ∈
      [(⟨"https://example.com/apple-touch-icon.png", none, none, "fallback", 20⟩ : FaviconSource),
       ⟨"https://example.com/favicon.ico", none, none, "fallback", 10⟩] :=
  wellKnown_present_on_html_success ("example.com") cfgNoRemote envHtmlUp none []
    ("https://example.com")
    [⟨"https://example.com/apple-touch-icon.png", none, none, "fallback", 20⟩,
     ⟨"https://example.com/favicon.ico", none, none, "fallback", 10⟩]
    rfl (by decide)

/-- A candidate rejected at the head of the list leaves the fetch result
unchanged: the loop advances with no retry. -/
theorem fetchBestFavicon_cons_of_reject (config : AppConfig) (env : FetchEnv)
    (f : FaviconSource) (rest : List FaviconSource)
    (h : acceptsCandidate env config.MAX_IMAGE_SIZE f = false) :
    fetchBestFavicon (f :: rest) config env = fetchBestFavicon rest config env := by
  unfold acceptsCandidate at h
  cases hc : faviconContent env f with
  | none =>
    conv_lhs => rw [fetchBestFavicon]
    rw [hc]
  | some bm =>
    obtain ⟨b, m⟩ := bm
    rw [hc] at h
    dsimp only [] at h
    conv_lhs => rw [fetchBestFavicon]
    rw [hc]
    dsimp only []
    rw [h]
    simp

/-- C2: fetchBestFavicon returns exactly the first candidate in list order
whose content is obtained with byte length in (0, MAX_IMAGE_SIZE] and a
passing image sniff — rejected candidates are skipped without retry — and
none when every candidate fails. -/
theorem fetchBestFavicon_first_acceptance (config : AppConfig) (env : FetchEnv) :
    (∀ l, (∀ f ∈ l, acceptsCandidate env config.MAX_IMAGE_SIZE f = false) →
       fetchBestFavicon l config env = none) ∧
    (∀ l₁ f l₂, (∀ g ∈ l₁, acceptsCandidate env config.MAX_IMAGE_SIZE g = false) →
       acceptsCandidate env config.MAX_IMAGE_SIZE f = true →
       ∃ buffer mime, faviconContent env f = some (buffer, mime) ∧
         0 < buffer.length ∧ buffer.length ≤ config.MAX_IMAGE_SIZE ∧
         env.validateImage buffer = true ∧
         fetchBestFavicon (l₁ ++ f :: l₂) config env =
           some ⟨buffer, detectFormat buffer (mime.orElse (fun _ => f.format)),
                 f.source, f.url⟩) := by
  constructor
  · intro l
    induction l with
    | nil => intro _; rfl
    | cons f rest ih =>
      intro h
      rw [fetchBestFavicon_cons_of_reject config env f rest (h f (by simp))]
      exact ih (fun g hg => h g (by simp [hg]))
  · intro l₁ f l₂ hrej hacc
    induction l₁ with
    | nil =>
      unfold acceptsCandidate at hacc
      cases hc : faviconContent env f with
      | none => rw [hc] at hacc; exact Bool.noConfusion hacc
      | some bm =>
        obtain ⟨b, m⟩ := bm
        rw [hc] at hacc
        dsimp only [] at hacc
        have hacc2 := hacc
        simp only [Bool.and_eq_true, decide_eq_true_eq] at hacc2
        refine ⟨b, m, rfl, hacc2.1.1, hacc2.1.2, hacc2.2, ?_⟩
        rw [List.nil_append]
        conv_lhs => rw [fetchBestFavicon]
        rw [hc]
        dsimp only []
        rw [hacc]
        simp
    | cons g l₁t ih =>
      rw [List.cons_append,
        fetchBestFavicon_cons_of_reject config env g (l₁t ++ f :: l₂)
          (hrej g (by simp))]
      exact ih (fun x hx => hrej x (by simp [hx]))

/-- Fetch behavior for the C2 witness: candidate a answers five bytes
(over the limit), candidate b answers four bytes of PNG, the sniff
accepts any nonempty buffer. -/
def envOversize : FetchEnv :=
  { fetch := fun u =>
      if u == "https://x/a.png" then some [1, 1, 1, 1, 1]
      else if u == "https://x/b.png" then some [0x89, 0x50, 1, 1]
      else none,
    parseDataUrl := fun _ => none,
    validateImage := fun b => decide (0 < b.length) }

/-- A 4-byte asset ceiling for the C2 witness. -/
def cfgTinyMax : AppConfig := { MAX_IMAGE_SIZE := 4 }

/-- The higher-ranked candidate of the C2 witness (oversize content). -/
def candOversize : FaviconSource :=
  ⟨"https://x/a.png", some 64, some ("png"), "link-tag", 120⟩

/-- The second-ranked candidate of the C2 witness (within the limit). -/
def candWithinLimit : FaviconSource :=
  ⟨"https://x/b.png", some 32, some ("png"), "link-tag", 110⟩

/-- Witness for C2: with the first-ranked candidate oversize and the
second within the limit, the second candidate's bytes are returned. -/
theorem fetchBestFavicon_witness :
    (∀ g ∈ [candOversize], acceptsCandidate envOversize cfgTinyMax.MAX_IMAGE_SIZE g = false) ∧
    acceptsCandidate envOversize cfgTinyMax.MAX_IMAGE_SIZE candWithinLimit = true ∧
    ∃ buffer mime, faviconContent envOversize candWithinLimit = some (buffer, mime) ∧
      0 < buffer.length ∧ buffer.length ≤ cfgTinyMax.MAX_IMAGE_SIZE ∧
      envOversize.validateImage buffer = true ∧
      fetchBestFavicon ([candOversize] ++ candWithinLimit :: []) cfgTinyMax envOversize =
        some ⟨buffer,
              detectFormat buffer (mime.orElse (fun _ => candWithinLimit.format)),
              candWithinLimit.source, candWithinLimit.url⟩ :=
  ⟨by decide, by decide,
   (fetchBestFavicon_first_acceptance cfgTinyMax envOversize).2
     [candOversize] candWithinLimit [] (by decide) (by decide)⟩

/-- C7: the image normalizer is a total function (the embedding returns a
ProcessedImage for every input, options and sharp behavior — no exception
escapes), and whenever the decode/resize/encode pipeline fails the result
is the original bytes unchanged, the format detected from magic numbers,
and width and height 0.  The same record is produced when metadata fails
and no processing was requested (the early-return path). -/
theorem processImage_recovers_original (imageData : Bytes)
    (options : ImageProcessOptions) (o : SharpOracle)
    (hsvg : svgPassThru imageData options = false)
    (hfail : o.processed = none) :
    processImage imageData options o =
      ⟨imageData, detectFormatFromBuffer imageData, 0, 0, imageData.length⟩ := by
  unfold processImage
  rw [hsvg]
  simp only [Bool.false_eq_true, if_false]
  cases hm : o.metadata with
  | some m =>
    unfold runSharpPipeline
    rw [hfail]
  | none =>
    dsimp only []
    split_ifs with hcond
    · rfl
    · unfold runSharpPipeline
      rw [hfail]

/-- Witness for C7: a PNG buffer with a resize request and a sharp whose
pipeline throws degrades to the original four bytes, detected png, 0x0. -/
theorem processImage_recovery_witness :
    svgPassThru [0x89, 0x50, 0x4e, 0x47] { size := some 32 } = false ∧
    ({ metadata := some { format := some ("png") } } : SharpOracle).processed = none ∧
    processImage [0x89, 0x50, 0x4e, 0x47] { size := some 32 }
        { metadata := some { format := some ("png") } } =
      ⟨[0x89, 0x50, 0x4e, 0x47],
       detectFormatFromBuffer [0x89, 0x50, 0x4e, 0x47], 0, 0,
       ([0x89, 0x50, 0x4e, 0x47] : Bytes).length⟩ :=
  ⟨by decide, rfl,
   processImage_recovers_original [0x89, 0x50, 0x4e, 0x47] { size := some 32 }
     { metadata := some { format := some ("png") } } (by decide) rfl⟩

/-- An SVG fixture declaring width="32" height="32", as in the repo's unit
tests for the image processor. -/
def svgWithDeclaredSize : Bytes :=
  strToBytes ("<svg xmlns=\"http://www.w3.org/2000/svg\" width=\"32\" height=\"32\"><circle r=\"10\"/></svg>")

/-- C4: evaluating the code at the failing input — the vector bypass
returns the declared-size SVG byte-identically but reports width and
height 0, never parsing the width/height attributes or the viewBox that
the repository's own unit tests (and the claim) require to yield 32. -/
theorem processImage_svg_reports_zero_dimensions :
    processImage svgWithDeclaredSize {} {} =
      ⟨svgWithDeclaredSize, "svg", 0, 0, svgWithDeclaredSize.length⟩ ∧
    (processImage svgWithDeclaredSize {} {}).width = 0 ∧
    (processImage svgWithDeclaredSize {} {}).height = 0 := by
  refine ⟨rfl, rfl, rfl⟩

/-- C1: for a request that passed validation, when the raced
discovery-and-fetch outcome is empty (every tier failed), no per-request
custom default was supplied, and the fallback singleton is initialized (as
the boot sequence guarantees), the response status is 200 — never 5xx. -/
theorem totalExhaustion_serves_default_200 (config : AppConfig)
    (env : RequestEnv) (q : RawQuery) (p : QueryParams) (r : FallbackRecord)
    (hparse : parseQueryParams config.BLOCK_PRIVATE_IPS q = some p)
    (hfav : env.faviconResult = none)
    (hnodef : p.default = none)
    (hinit : env.cachedFallback = some r) :
    (handleFaviconRequest config env q).status = 200 := by
  unfold handleFaviconRequest
  rw [hparse, hfav]
  dsimp only []
  unfold handleFallback
  rw [hnodef]
  dsimp only []
  rw [hinit]
  dsimp only []
  cases p.response <;> split_ifs <;> rfl

/-- A default configuration for the C1 witness. -/
def cfgDefault : AppConfig := {}

/-- Request environment of the C1 witness: every tier failed, the
singleton holds the bundled vector default. -/
def envExhausted : RequestEnv :=
  { cachedFallback := some ⟨strToBytes ("<svg/>"), "svg", "default.svg"⟩ }

/-- The raw query of the C1 witness: just a domain. -/
def qExample : RawQuery := { url := some ("example.com") }

/-- Witness for C1 at a concrete exhausted request. -/
theorem totalExhaustion_witness :
    parseQueryParams cfgDefault.BLOCK_PRIVATE_IPS qExample =
      some ⟨"https://example.com", OutputFormat.image, none, none, none⟩ ∧
    envExhausted.faviconResult = none ∧
    (handleFaviconRequest cfgDefault envExhausted qExample).status = 200 :=
  ⟨by decide, rfl,
   totalExhaustion_serves_default_200 cfgDefault envExhausted qExample
     ⟨"https://example.com", OutputFormat.image, none, none, none⟩
     ⟨strToBytes ("<svg/>"), "svg", "default.svg"⟩ (by decide) rfl rfl rfl⟩

end FaviconApi
